import Mathlib

/-!
Shallow embedding of the TCP China congestion controller
(`src/tcp_china.c`) and proofs about it.

Machine integers: the kernel code works on `u32` fields (and one `s32`
RTT input).  We model values as `Nat` (resp. `Int` for the signed RTT
sample) and apply `% 2^32` exactly where the C arithmetic can wrap:
on additions/subtractions/multiplications of `u32` expressions.
-/

set_option autoImplicit false

namespace TcpChina

/-- Modulus of the kernel's 32-bit unsigned arithmetic, `2 ^ 32`. -/
def U32 : Nat := 4294967296

/-- Wrapping 32-bit subtraction: `a - b` on `u32` operands. -/
def sub32 (a b : Nat) : Nat := (a % U32 + U32 - b % U32) % U32

/-- The AIMD table `hstcp_aimd_vals` from `src/tcp_china.c` lines 38-111:
each entry is `(cwnd, md)`, the window threshold and the fixed-point
(scaled by 256) multiplicative-decrease factor. -/
def hstcp_aimd_vals : List (Nat × Nat) :=
  [ (38, 128), (118, 112), (221, 104), (347, 98), (495, 93), (663, 89),
    (851, 86), (1058, 83), (1284, 81), (1529, 78), (1793, 76), (2076, 74),
    (2378, 72), (2699, 71), (3039, 69), (3399, 68), (3778, 66), (4177, 65),
    (4596, 64), (5036, 62), (5497, 61), (5979, 60), (6483, 59), (7009, 58),
    (7558, 57), (8130, 56), (8726, 55), (9346, 54), (9991, 53), (10661, 52),
    (11358, 52), (12082, 51), (12834, 50), (13614, 49), (14424, 48),
    (15265, 48), (16137, 47), (17042, 46), (17981, 45), (18955, 45),
    (19965, 44), (21013, 43), (22101, 43), (23230, 42), (24402, 41),
    (25618, 41), (26881, 40), (28193, 39), (29557, 39), (30975, 38),
    (32450, 38), (33986, 37), (35586, 36), (37253, 36), (38992, 35),
    (40808, 35), (42707, 34), (44694, 33), (46776, 33), (48961, 32),
    (51258, 32), (53677, 31), (56230, 30), (58932, 30), (61799, 29),
    (64851, 28), (68113, 28), (71617, 27), (75401, 26), (79517, 26),
    (84035, 25), (89053, 24) ]

/-- Number of table entries, `HSTCP_AIMD_MAX = ARRAY_SIZE(hstcp_aimd_vals)`. -/
def HSTCP_AIMD_MAX : Nat := hstcp_aimd_vals.length

/-- Threshold field `hstcp_aimd_vals[i].cwnd`. -/
def cwndAt (i : Nat) : Nat := (hstcp_aimd_vals.getD i (0, 0)).1

/-- Decrease factor field `hstcp_aimd_vals[i].md`. -/
def mdAt (i : Nat) : Nat := (hstcp_aimd_vals.getD i (0, 0)).2

/-- Per-connection private state, `struct china` in the source:
minimum RTT seen, smoothed average RTT, and the AIMD table index `ai`. -/
structure China where
  minrtt : Nat
  artt : Nat
  ai : Nat
deriving DecidableEq

/-- The `tcp_sock` fields the controller reads and writes:
`snd_cwnd`, `snd_ssthresh`, `snd_cwnd_cnt`, `snd_cwnd_clamp`. -/
structure TcpSock where
  snd_cwnd : Nat
  snd_ssthresh : Nat
  snd_cwnd_cnt : Nat
  snd_cwnd_clamp : Nat
deriving DecidableEq

/-- Embedding of `tcp_china_reset`: clears the two RTT fields. -/
def tcp_china_reset (ca : China) : China :=
  { ca with minrtt := 0, artt := 0 }

/-- Embedding of `tcp_china_init`: zeroes `ai`, lowers `snd_cwnd_clamp`
to at most `0xffffffff / 128` so the decrease multiplication cannot
overflow, and resets the RTT estimator. -/
def tcp_china_init (tp : TcpSock) (ca : China) : TcpSock × China :=
  ({ tp with snd_cwnd_clamp := min tp.snd_cwnd_clamp (0xffffffff / 128) },
   tcp_china_reset { ca with ai := 0 })

/-- Embedding of `tcp_china_rtt_calc`.  The C code computes
`u32 rtt = rtt_us + 1` from the signed sample (two's-complement
reinterpretation, modelled by `% 2^32` on `Int` then `toNat`),
unconditionally, then updates the minimum and the 7/8-smoothed average.
The `num_acked` argument is accepted and ignored, as in the source. -/
def tcp_china_rtt_calc (ca : China) (num_acked : Nat) (rtt_us : Int) : China :=
  let rtt : Nat := ((rtt_us + 1) % (U32 : Int)).toNat
  let minrtt : Nat := if rtt < ca.minrtt ∨ ca.minrtt = 0 then rtt else ca.minrtt
  let artt : Nat :=
    if 0 < ca.artt then (ca.artt + sub32 (rtt / 8) (ca.artt / 8)) % U32
    else rtt
  { ca with artt := artt, minrtt := minrtt }

/-- Bounded iteration of the index-advance loop
`while (snd_cwnd > vals[ai].cwnd && ai < HSTCP_AIMD_MAX - 1) ai++;`.
The fuel argument only bounds the iteration count; `HSTCP_AIMD_MAX`
fuel always suffices since the loop stops at `HSTCP_AIMD_MAX - 1`. -/
def advanceIdxFuel (w : Nat) : Nat → Nat → Nat
  | i, 0 => i
  | i, fuel + 1 =>
      if cwndAt i < w ∧ i < HSTCP_AIMD_MAX - 1 then advanceIdxFuel w (i + 1) fuel
      else i

/-- The index-advance loop of `tcp_china_cong_avoid`, run to completion. -/
def advance_index_for (w i : Nat) : Nat := advanceIdxFuel w i HSTCP_AIMD_MAX

/-- Bounded iteration of the index-retreat loop
`while (ai && snd_cwnd <= vals[ai-1].cwnd) ai--;`.  Fuel `i` always
suffices since the loop stops at `0`. -/
def retreatIdxFuel (w : Nat) : Nat → Nat → Nat
  | i, 0 => i
  | i, fuel + 1 =>
      if i ≠ 0 ∧ w ≤ cwndAt (i - 1) then retreatIdxFuel w (i - 1) fuel
      else i

/-- The index-retreat loop of `tcp_china_cong_avoid`, run to completion. -/
def retreat_index_for (w i : Nat) : Nat := retreatIdxFuel w i i

/-- The AIMD-parameter update block of `tcp_china_cong_avoid`
(source lines 207-217): advance the index if the window moved above the
current threshold, else retreat it if it dropped to or below the
previous threshold. -/
def aiUpdate (w i : Nat) : Nat :=
  if cwndAt i < w then advance_index_for w i
  else if i ≠ 0 ∧ w ≤ cwndAt (i - 1) then retreat_index_for w i
  else i

/-- Modelled from the spec: `tcp_slow_start` is kernel code outside this
repository; section 4.3 of the spec states the rule as "window grows by
the number of newly acknowledged segments, bounded so it never exceeds
the clamp". -/
def tcp_slow_start (tp : TcpSock) (acked : Nat) : TcpSock :=
  { tp with snd_cwnd := min (tp.snd_cwnd + acked) tp.snd_cwnd_clamp }

/-- Embedding of `tcp_china_cong_avoid`.  The boolean `cwnd_limited`
stands for the external `tcp_is_cwnd_limited(sk)` test; when it is
false the function returns with no state change.  Otherwise slow start
applies when `snd_cwnd <= snd_ssthresh`; else the table index is
re-synced and, below the clamp, the fractional counter accumulates
`ai + 1`, carrying one segment into the window when it reaches it. -/
def tcp_china_cong_avoid (tp : TcpSock) (ca : China) (acked : Nat)
    (cwnd_limited : Bool) : TcpSock × China :=
  if cwnd_limited = false then (tp, ca)
  else if tp.snd_cwnd ≤ tp.snd_ssthresh then (tcp_slow_start tp acked, ca)
  else
    let ai := aiUpdate tp.snd_cwnd ca.ai
    if tp.snd_cwnd < tp.snd_cwnd_clamp then
      let cnt := (tp.snd_cwnd_cnt + (ai + 1)) % U32
      if tp.snd_cwnd ≤ cnt then
        ({ tp with snd_cwnd := (tp.snd_cwnd + 1) % U32,
                   snd_cwnd_cnt := cnt - tp.snd_cwnd },
         { ca with ai := ai })
      else
        ({ tp with snd_cwnd_cnt := cnt }, { ca with ai := ai })
    else (tp, { ca with ai := ai })

/-- Embedding of `tcp_china_ssthresh`:
`max(snd_cwnd - ((snd_cwnd * vals[ai].md) >> 8), 2U)` in `u32`
arithmetic. -/
def tcp_china_ssthresh (tp : TcpSock) (ca : China) : Nat :=
  max (sub32 tp.snd_cwnd (tp.snd_cwnd * mdAt ca.ai % U32 / 256)) 2

/-- The table-index boundary relation of the spec (and of the comment at
source lines 200-206): `vals[i-1].cwnd < w <= vals[i].cwnd`, with the
index saturating at the last entry for windows above every threshold. -/
def bracketInv (w i : Nat) : Prop :=
  (w ≤ cwndAt i ∨ i = HSTCP_AIMD_MAX - 1) ∧ (i = 0 ∨ cwndAt (i - 1) < w)

instance (w i : Nat) : Decidable (bracketInv w i) := by
  unfold bracketInv; infer_instance

/-- Constant-sample iteration of the RTT estimator, used to state the
convergence property. -/
def iterRtt (ca : China) (v : Int) : Nat → China
  | 0 => ca
  | n + 1 => tcp_china_rtt_calc (iterRtt ca v n) 1 v

/-! ### Helper lemmas -/

lemma cwndAt_lt_succ : ∀ i, i < HSTCP_AIMD_MAX - 1 → cwndAt i < cwndAt (i + 1) := by decide

lemma mdAt_le : ∀ i, i < HSTCP_AIMD_MAX → mdAt i ≤ 128 := by decide

lemma sub32_eq_of_le (a b : Nat) (ha : a < U32) (hb : b ≤ a) : sub32 a b = a - b := by
  unfold sub32 U32 at *
  omega

lemma advanceIdxFuel_bracket (w : Nat) :
    ∀ fuel i, HSTCP_AIMD_MAX ≤ i + fuel + 1 → i < HSTCP_AIMD_MAX →
      (i = 0 ∨ cwndAt (i - 1) < w) →
      bracketInv w (advanceIdxFuel w i fuel) ∧ advanceIdxFuel w i fuel < HSTCP_AIMD_MAX := by
  intro fuel
  induction fuel with
  | zero =>
      intro i hfuel hi hpre
      simp only [advanceIdxFuel]
      exact ⟨⟨Or.inr (by omega), hpre⟩, hi⟩
  | succ fuel ih =>
      intro i hfuel hi hpre
      simp only [advanceIdxFuel]
      by_cases h : cwndAt i < w ∧ i < HSTCP_AIMD_MAX - 1
      · rw [if_pos h]
        refine ih (i + 1) (by omega) (by omega) (Or.inr ?_)
        simpa using h.1
      · rw [if_neg h]
        exact ⟨⟨by omega, hpre⟩, hi⟩

lemma retreatIdxFuel_bracket (w : Nat) :
    ∀ fuel i, i ≤ fuel → i < HSTCP_AIMD_MAX → w ≤ cwndAt i →
      bracketInv w (retreatIdxFuel w i fuel) ∧ retreatIdxFuel w i fuel < HSTCP_AIMD_MAX := by
  intro fuel
  induction fuel with
  | zero =>
      intro i hfuel hi hw
      simp only [retreatIdxFuel]
      exact ⟨⟨Or.inl hw, Or.inl (by omega)⟩, hi⟩
  | succ fuel ih =>
      intro i hfuel hi hw
      simp only [retreatIdxFuel]
      by_cases h : i ≠ 0 ∧ w ≤ cwndAt (i - 1)
      · rw [if_pos h]
        refine ih (i - 1) (by omega) (by omega) h.2
      · rw [if_neg h]
        refine ⟨⟨Or.inl hw, ?_⟩, hi⟩
        omega

lemma aiUpdate_bracket (w i : Nat) (hi : i < HSTCP_AIMD_MAX) :
    bracketInv w (aiUpdate w i) ∧ aiUpdate w i < HSTCP_AIMD_MAX := by
  unfold aiUpdate advance_index_for retreat_index_for
  by_cases h1 : cwndAt i < w
  · rw [if_pos h1]
    refine advanceIdxFuel_bracket w HSTCP_AIMD_MAX i (by omega) hi ?_
    by_cases h0 : i = 0
    · exact Or.inl h0
    · right
      have hstep := cwndAt_lt_succ (i - 1) (by omega)
      have hii : i - 1 + 1 = i := by omega
      rw [hii] at hstep
      omega
  · rw [if_neg h1]
    by_cases h2 : i ≠ 0 ∧ w ≤ cwndAt (i - 1)
    · rw [if_pos h2]
      exact retreatIdxFuel_bracket w i i (le_refl i) hi (by omega)
    · rw [if_neg h2]
      exact ⟨⟨Or.inl (by omega), by omega⟩, hi⟩

lemma cong_avoid_fast_ai (tp : TcpSock) (ca : China) (acked : Nat)
    (hfast : tp.snd_ssthresh < tp.snd_cwnd) :
    (tcp_china_cong_avoid tp ca acked true).2.ai = aiUpdate tp.snd_cwnd ca.ai := by
  unfold tcp_china_cong_avoid
  rw [if_neg (by simp), if_neg (by omega)]
  dsimp only
  split
  · split <;> rfl
  · rfl

lemma artt_smooth_pos (A R : Nat) (hA : 0 < A) (hA2 : A < U32) (hR : R < U32) :
    0 < (A + sub32 (R / 8) (A / 8)) % U32 := by
  unfold sub32 U32 at *
  have h1 : A / 8 % 4294967296 = A / 8 := Nat.mod_eq_of_lt (by omega)
  have h2 : R / 8 % 4294967296 = R / 8 := Nat.mod_eq_of_lt (by omega)
  rw [h1, h2]
  have e1 : (R / 8 + 4294967296 - A / 8) % 4294967296
      = R / 8 + 4294967296 - A / 8 - (if A / 8 ≤ R / 8 then 4294967296 else 0) := by
    split_ifs with h <;> omega
  rw [e1]
  have e2 : (A + (R / 8 + 4294967296 - A / 8 - (if A / 8 ≤ R / 8 then 4294967296 else 0)))
        % 4294967296
      = A - A / 8 + R / 8 := by
    split_ifs with h <;> omega
  rw [e2]
  omega

lemma rtt_calc_const_step (ca : China) (v : Int) (hlo : 0 ≤ v)
    (hhi : v + 1 < (U32 : Int))
    (h1 : ca.artt = 0 ∨ ca.artt = (v + 1).toNat)
    (h2 : ca.minrtt = 0 ∨ ca.minrtt = (v + 1).toNat) :
    (tcp_china_rtt_calc ca 1 v).artt = (v + 1).toNat ∧
    (tcp_china_rtt_calc ca 1 v).minrtt = (v + 1).toNat := by
  simp only [tcp_china_rtt_calc, sub32, U32] at *
  split_ifs <;> constructor <;> omega

/-! ### Claim theorems -/

/-- C1: for every connection state whose table index is valid and whose
window respects the init-time clamp bound, `tcp_china_ssthresh` returns
exactly `max(snd_cwnd - ((snd_cwnd * vals[ai].md) >> 8), 2)`, computed
at whatever table index the state currently holds (any valid index, not
one re-derived from the window), and the result is never below 2. -/
theorem c1_ssthresh_formula (tp : TcpSock) (ca : China)
    (hai : ca.ai < HSTCP_AIMD_MAX) (hw : tp.snd_cwnd ≤ 0xffffffff / 128) :
    tcp_china_ssthresh tp ca
      = max (tp.snd_cwnd - tp.snd_cwnd * mdAt ca.ai / 256) 2 ∧
    2 ≤ tcp_china_ssthresh tp ca := by
  refine ⟨?_, by unfold tcp_china_ssthresh; exact Nat.le_max_right _ 2⟩
  have hmd : mdAt ca.ai ≤ 128 := mdAt_le ca.ai hai
  have hmul : tp.snd_cwnd * mdAt ca.ai ≤ tp.snd_cwnd * 128 :=
    Nat.mul_le_mul (le_refl _) hmd
  have hlt : tp.snd_cwnd * mdAt ca.ai < U32 := by unfold U32; omega
  unfold tcp_china_ssthresh
  rw [Nat.mod_eq_of_lt hlt,
      sub32_eq_of_le _ _ (by unfold U32; omega) (by omega)]

/-- Witness for C1 at window 10000 and table index 29. -/
theorem c1_ssthresh_formula_witness :
    (⟨0, 0, 29⟩ : China).ai < HSTCP_AIMD_MAX ∧
    (⟨10000, 100, 0, 33554431⟩ : TcpSock).snd_cwnd ≤ 0xffffffff / 128 ∧
    (tcp_china_ssthresh ⟨10000, 100, 0, 33554431⟩ ⟨0, 0, 29⟩
       = max (10000 - 10000 * mdAt 29 / 256) 2 ∧
     2 ≤ tcp_china_ssthresh ⟨10000, 100, 0, 33554431⟩ ⟨0, 0, 29⟩) :=
  ⟨by decide, by decide,
   c1_ssthresh_formula ⟨10000, 100, 0, 33554431⟩ ⟨0, 0, 29⟩ (by decide) (by decide)⟩

/-- C2 (as stated) is false: a slow-start `on_ack` call neither moves the
table index nor checks the boundary relation, so starting from an
initialized state (window 10, threshold 1000, clamp reduced from
`0xffffffff`), a single window-limited `on_ack` with 100 acked segments
grows the window to 110 while the table index stays 0, and
`vals[0].cwnd = 38 < 110` violates the boundary relation. -/
theorem c2_counterexample :
    (tcp_china_cong_avoid (tcp_china_init ⟨10, 1000, 0, 4294967295⟩ ⟨0, 0, 0⟩).1
       (tcp_china_init ⟨10, 1000, 0, 4294967295⟩ ⟨0, 0, 0⟩).2 100 true).1.snd_cwnd = 110 ∧
    (tcp_china_cong_avoid (tcp_china_init ⟨10, 1000, 0, 4294967295⟩ ⟨0, 0, 0⟩).1
       (tcp_china_init ⟨10, 1000, 0, 4294967295⟩ ⟨0, 0, 0⟩).2 100 true).2.ai = 0 ∧
    ¬ bracketInv 110 0 := by decide

/-- C2 (amended): after an `on_ack` call that takes the fast-growth
branch (window limited and window above the slow-start threshold), the
table index satisfies the boundary relation for the window value the
call was entered with (the window itself may then grow by at most one
segment past it), and the index stays within the table. -/
theorem c2_fast_growth_bracket (tp : TcpSock) (ca : China) (acked : Nat)
    (hai : ca.ai < HSTCP_AIMD_MAX) (hfast : tp.snd_ssthresh < tp.snd_cwnd) :
    bracketInv tp.snd_cwnd (tcp_china_cong_avoid tp ca acked true).2.ai ∧
    (tcp_china_cong_avoid tp ca acked true).2.ai < HSTCP_AIMD_MAX := by
  rw [cong_avoid_fast_ai tp ca acked hfast]
  exact aiUpdate_bracket tp.snd_cwnd ca.ai hai

/-- Witness for the amended C2 at window 10000, index 0. -/
theorem c2_fast_growth_bracket_witness :
    (⟨0, 0, 0⟩ : China).ai < HSTCP_AIMD_MAX ∧
    (⟨10000, 100, 0, 33554431⟩ : TcpSock).snd_ssthresh
      < (⟨10000, 100, 0, 33554431⟩ : TcpSock).snd_cwnd ∧
    (bracketInv 10000
       (tcp_china_cong_avoid ⟨10000, 100, 0, 33554431⟩ ⟨0, 0, 0⟩ 1 true).2.ai ∧
     (tcp_china_cong_avoid ⟨10000, 100, 0, 33554431⟩ ⟨0, 0, 0⟩ 1 true).2.ai
       < HSTCP_AIMD_MAX) :=
  ⟨by decide, by decide,
   c2_fast_growth_bracket ⟨10000, 100, 0, 33554431⟩ ⟨0, 0, 0⟩ 1 (by decide) (by decide)⟩

/-- C3: `tcp_china_cong_avoid` with `cwnd_limited = false` is a strict
no-op: the whole state, window, threshold, counter, clamp, table index
and RTT fields, is returned unchanged for every prior state. -/
theorem c3_not_limited_noop (tp : TcpSock) (ca : China) (acked : Nat) :
    tcp_china_cong_avoid tp ca acked false = (tp, ca) := rfl

/-- C4 (as stated) is false: the source adds 1 to every sample, also to
positive ones, so a raw sample of 100 is stored as 101, and the sample
`-1` is stored as `(-1 + 1) = 0`, making both `minrtt` and `artt` zero. -/
theorem c4_counterexample :
    (tcp_china_rtt_calc ⟨0, 0, 0⟩ 1 100).minrtt = 101 ∧
    (tcp_china_rtt_calc ⟨0, 0, 0⟩ 1 100).minrtt ≠ 100 ∧
    (tcp_china_rtt_calc ⟨0, 0, 0⟩ 1 (-1)).minrtt = 0 ∧
    (tcp_china_rtt_calc ⟨0, 0, 0⟩ 1 (-1)).artt = 0 := by decide

/-- C4 (amended): every `tcp_china_rtt_calc` call incorporates the value
`rtt_us + 1` (reduced mod `2^32`) unconditionally, also for positive raw
samples; for raw samples in `[0, 2^32 - 2]` that value is strictly
positive, and the stored `minrtt` and `artt` are nonzero after the call
for every in-range prior state. -/
theorem c4_rtt_plus_one (ca : China) (n : Nat) (rtt_us : Int)
    (hlo : 0 ≤ rtt_us) (hhi : rtt_us + 1 < (U32 : Int)) (hartt : ca.artt < U32) :
    (tcp_china_rtt_calc ca n rtt_us).minrtt ≠ 0 ∧
    (tcp_china_rtt_calc ca n rtt_us).artt ≠ 0 ∧
    (ca.minrtt = 0 → (tcp_china_rtt_calc ca n rtt_us).minrtt = (rtt_us + 1).toNat) := by
  simp only [tcp_china_rtt_calc]
  set r := ((rtt_us + 1) % (U32 : Int)).toNat with hrdef
  have hr1 : 1 ≤ r := by rw [hrdef]; unfold U32 at hhi ⊢; omega
  have hr2 : r < U32 := by rw [hrdef]; unfold U32 at hhi ⊢; omega
  have hr3 : r = (rtt_us + 1).toNat := by rw [hrdef]; unfold U32 at hhi ⊢; omega
  rw [← hr3]
  refine ⟨?_, ?_, ?_⟩
  · split_ifs <;> omega
  · split_ifs with h
    · exact (artt_smooth_pos ca.artt r h hartt hr2).ne'
    · omega
  · intro hm
    split_ifs with h <;> omega

/-- Witness for the amended C4 on a fresh estimator and sample 100. -/
theorem c4_rtt_plus_one_witness :
    (0 : Int) ≤ 100 ∧ (100 : Int) + 1 < (U32 : Int) ∧ (⟨0, 0, 0⟩ : China).artt < U32 ∧
    ((tcp_china_rtt_calc ⟨0, 0, 0⟩ 1 100).minrtt ≠ 0 ∧
     (tcp_china_rtt_calc ⟨0, 0, 0⟩ 1 100).artt ≠ 0 ∧
     ((⟨0, 0, 0⟩ : China).minrtt = 0 →
        (tcp_china_rtt_calc ⟨0, 0, 0⟩ 1 100).minrtt = ((100 : Int) + 1).toNat)) :=
  ⟨by decide, by decide, by decide,
   c4_rtt_plus_one ⟨0, 0, 0⟩ 1 100 (by decide) (by decide) (by decide)⟩

/-- C5 (as stated) is false: one `record_sample(100, 1)` on a fresh
estimator stores 101, not 100, in both fields. -/
theorem c5_counterexample :
    ¬ ((tcp_china_rtt_calc ⟨0, 0, 0⟩ 1 100).minrtt = 100 ∧
       (tcp_china_rtt_calc ⟨0, 0, 0⟩ 1 100).artt = 100) := by decide

/-- C5 (amended): from a fresh estimator, repeated samples of a constant
in-range value `v` make `artt` converge to (indeed, immediately equal,
from the first sample on) `v + 1`, and `minrtt = v + 1` as well; in
particular one `record_sample(100, 1)` yields `minrtt = artt = 101`. -/
theorem c5_rtt_converges_plus_one (v : Int) (n : Nat)
    (hlo : 0 ≤ v) (hhi : v + 1 < (U32 : Int)) (hn : 1 ≤ n) :
    (iterRtt ⟨0, 0, 0⟩ v n).artt = (v + 1).toNat ∧
    (iterRtt ⟨0, 0, 0⟩ v n).minrtt = (v + 1).toNat := by
  induction n with
  | zero => exact absurd hn (by omega)
  | succ n ih =>
      rcases Nat.eq_zero_or_pos n with h0 | hpos
      · subst h0
        exact rtt_calc_const_step ⟨0, 0, 0⟩ v hlo hhi (Or.inl rfl) (Or.inl rfl)
      · obtain ⟨ha, hm⟩ := ih hpos
        exact rtt_calc_const_step _ v hlo hhi (Or.inr ha) (Or.inr hm)

/-- Witness for the amended C5 with sample 100 taken twice. -/
theorem c5_rtt_converges_plus_one_witness :
    (0 : Int) ≤ 100 ∧ (100 : Int) + 1 < (U32 : Int) ∧ (1 : Nat) ≤ 2 ∧
    ((iterRtt ⟨0, 0, 0⟩ 100 2).artt = 101 ∧
     (iterRtt ⟨0, 0, 0⟩ 100 2).minrtt = 101) :=
  ⟨by decide, by decide, by decide,
   c5_rtt_converges_plus_one 100 2 (by decide) (by decide) (by decide)⟩

/-- C6: in fast-growth mode (window above the slow-start threshold),
window limited and window below the clamp, `on_ack` adds
`table_index + 1` (with the index as just re-synced for the current
window) to the fractional counter; if the counter reaches the window it
wraps by the window and the window grows by exactly one segment,
otherwise the window is unchanged.  The bounds keep the `u32` counter
and window additions below `2^32`. -/
theorem c6_fast_growth_step (tp : TcpSock) (ca : China) (acked : Nat)
    (hai : ca.ai < HSTCP_AIMD_MAX) (hfast : tp.snd_ssthresh < tp.snd_cwnd)
    (hclamp : tp.snd_cwnd < tp.snd_cwnd_clamp) (hclU : tp.snd_cwnd_clamp < U32)
    (hcnt : tp.snd_cwnd_cnt + HSTCP_AIMD_MAX < U32) :
    (tcp_china_cong_avoid tp ca acked true).2.ai = aiUpdate tp.snd_cwnd ca.ai ∧
    (if tp.snd_cwnd ≤ tp.snd_cwnd_cnt + (aiUpdate tp.snd_cwnd ca.ai + 1) then
       (tcp_china_cong_avoid tp ca acked true).1.snd_cwnd = tp.snd_cwnd + 1 ∧
       (tcp_china_cong_avoid tp ca acked true).1.snd_cwnd_cnt
         = tp.snd_cwnd_cnt + (aiUpdate tp.snd_cwnd ca.ai + 1) - tp.snd_cwnd
     else
       (tcp_china_cong_avoid tp ca acked true).1.snd_cwnd = tp.snd_cwnd ∧
       (tcp_china_cong_avoid tp ca acked true).1.snd_cwnd_cnt
         = tp.snd_cwnd_cnt + (aiUpdate tp.snd_cwnd ca.ai + 1)) := by
  have hM := (aiUpdate_bracket tp.snd_cwnd ca.ai hai).2
  have hmod : (tp.snd_cwnd_cnt + (aiUpdate tp.snd_cwnd ca.ai + 1)) % U32
      = tp.snd_cwnd_cnt + (aiUpdate tp.snd_cwnd ca.ai + 1) :=
    Nat.mod_eq_of_lt (by omega)
  have hmod2 : (tp.snd_cwnd + 1) % U32 = tp.snd_cwnd + 1 :=
    Nat.mod_eq_of_lt (by omega)
  refine ⟨cong_avoid_fast_ai tp ca acked hfast, ?_⟩
  unfold tcp_china_cong_avoid
  rw [if_neg (show ¬(true = false) by simp),
      if_neg (show ¬(tp.snd_cwnd ≤ tp.snd_ssthresh) by omega)]
  dsimp only
  rw [if_pos hclamp, hmod]
  split_ifs with h
  · exact ⟨hmod2, rfl⟩
  · exact ⟨rfl, rfl⟩

/-- Witness for C6: window 38 at the slow-start boundary with counter 37
grows to 39 in one call, matching scenario 4 of the spec. -/
theorem c6_fast_growth_step_witness :
    (tcp_china_cong_avoid ⟨38, 10, 37, 1000⟩ ⟨0, 0, 0⟩ 1 true).1.snd_cwnd = 39 ∧
    (tcp_china_cong_avoid ⟨38, 10, 37, 1000⟩ ⟨0, 0, 0⟩ 1 true).1.snd_cwnd_cnt = 0 ∧
    (tcp_china_cong_avoid ⟨38, 10, 37, 1000⟩ ⟨0, 0, 0⟩ 1 true).2.ai = 0 := by
  have h := c6_fast_growth_step ⟨38, 10, 37, 1000⟩ ⟨0, 0, 0⟩ 1
    (by decide) (by decide) (by decide) (by decide) (by decide)
  obtain ⟨h1, h2⟩ := h
  rw [if_pos (by decide)] at h2
  refine ⟨?_, ?_, ?_⟩
  · rw [h2.1]
  · rw [h2.2]; decide
  · rw [h1]; decide

/-- C7: `tcp_china_init` zeroes the table index, clears the RTT
estimator, stores `min(clamp_in, 0xffffffff / 128)` as the clamp, and
under that clamp `window * decrease_factor` stays below `2^32` for
every valid table entry. -/
theorem c7_init_overflow_safe (tp : TcpSock) (ca : China) (w i : Nat)
    (hw : w ≤ (tcp_china_init tp ca).1.snd_cwnd_clamp) (hi : i < HSTCP_AIMD_MAX) :
    (tcp_china_init tp ca).2.ai = 0 ∧
    (tcp_china_init tp ca).2.minrtt = 0 ∧
    (tcp_china_init tp ca).2.artt = 0 ∧
    (tcp_china_init tp ca).1.snd_cwnd_clamp = min tp.snd_cwnd_clamp (0xffffffff / 128) ∧
    w * mdAt i < U32 := by
  refine ⟨rfl, rfl, rfl, rfl, ?_⟩
  have hmd : mdAt i ≤ 128 := mdAt_le i hi
  have hw2 : w ≤ 33554431 := by
    have hcl : (tcp_china_init tp ca).1.snd_cwnd_clamp
        = min tp.snd_cwnd_clamp (0xffffffff / 128) := rfl
    rw [hcl] at hw
    omega
  have hmul : w * mdAt i ≤ 33554431 * 128 := Nat.mul_le_mul hw2 hmd
  unfold U32
  omega

/-- Witness for C7 with the spec's scenario-1 clamp of 1000000. -/
theorem c7_init_overflow_safe_witness :
    (1000000 : Nat) ≤ (tcp_china_init ⟨10, 100, 0, 1000000⟩ ⟨5, 7, 3⟩).1.snd_cwnd_clamp ∧
    (0 : Nat) < HSTCP_AIMD_MAX ∧
    ((tcp_china_init ⟨10, 100, 0, 1000000⟩ ⟨5, 7, 3⟩).2.ai = 0 ∧
     (tcp_china_init ⟨10, 100, 0, 1000000⟩ ⟨5, 7, 3⟩).2.minrtt = 0 ∧
     (tcp_china_init ⟨10, 100, 0, 1000000⟩ ⟨5, 7, 3⟩).2.artt = 0 ∧
     (tcp_china_init ⟨10, 100, 0, 1000000⟩ ⟨5, 7, 3⟩).1.snd_cwnd_clamp
       = min 1000000 (0xffffffff / 128) ∧
     1000000 * mdAt 0 < U32) :=
  ⟨by decide, by decide,
   c7_init_overflow_safe ⟨10, 100, 0, 1000000⟩ ⟨5, 7, 3⟩ 1000000 0 (by decide) (by decide)⟩

/-- C8 (as stated) is false: the table entry whose threshold bracket
contains window 10000 is index 29, `(10661, 52)` (since
`vals[28].cwnd = 9991 < 10000 <= 10661`), not an entry with decrease
factor 53, and the decrease returns `10000 - (10000*52 >> 8) = 7969`,
not `10000 - (10000*53 >> 8) = 7930`. -/
theorem c8_counterexample :
    aiUpdate 10000 0 = 29 ∧ bracketInv 10000 29 ∧ mdAt 29 = 52 ∧
    tcp_china_ssthresh ⟨10000, 100, 0, 33554431⟩ ⟨0, 0, 29⟩ = 7969 ∧
    tcp_china_ssthresh ⟨10000, 100, 0, 33554431⟩ ⟨0, 0, 29⟩
      ≠ 10000 - 10000 * 53 / 256 := by decide

/-- C8 (amended): with window 10000 and the table index synced to the
entry whose threshold bracket contains 10000 (index 29, decrease factor
52), `tcp_china_ssthresh` returns `10000 - (10000*52 >> 8) = 7969`. -/
theorem c8_ssthresh_10000 :
    aiUpdate 10000 0 = 29 ∧ mdAt 29 = 52 ∧
    tcp_china_ssthresh ⟨10000, 100, 0, 33554431⟩ ⟨0, 0, 29⟩
      = 10000 - 10000 * 52 / 256 ∧
    tcp_china_ssthresh ⟨10000, 100, 0, 33554431⟩ ⟨0, 0, 29⟩ = 7969 := by decide

/-- C9 (as stated) is false: the table has 72 entries, not 73. -/
theorem c9_counterexample : HSTCP_AIMD_MAX ≠ 73 := by decide

/-- C9 (amended): the table has exactly 72 entries and its thresholds
are strictly increasing across adjacent entries. -/
theorem c9_table_strictly_increasing (i : Nat) (h : i + 1 < HSTCP_AIMD_MAX) :
    HSTCP_AIMD_MAX = 72 ∧ cwndAt i < cwndAt (i + 1) :=
  ⟨by decide, cwndAt_lt_succ i (by omega)⟩

/-- Witness for the amended C9 at the first pair of entries. -/
theorem c9_table_strictly_increasing_witness :
    0 + 1 < HSTCP_AIMD_MAX ∧ (HSTCP_AIMD_MAX = 72 ∧ cwndAt 0 < cwndAt (0 + 1)) :=
  ⟨by decide, c9_table_strictly_increasing 0 (by decide)⟩

/-- C10: the RTT estimator ignores the acked-count argument entirely:
two `tcp_china_rtt_calc` calls differing only in `num_acked` produce
identical states, for every prior state and sample. -/
theorem c10_rtt_ignores_acked (ca : China) (n₁ n₂ : Nat) (rtt_us : Int) :
    tcp_china_rtt_calc ca n₁ rtt_us = tcp_china_rtt_calc ca n₂ rtt_us := rfl

end TcpChina
